import Mathlib

/-!
Verification development for the `homebridge-http-temperature-2` repository.

The embedding follows `src/temperature-service.ts` and `src/config.ts`:
the numeric parsing helpers, the JSON/jq field extraction used by
`parseTemperatureFromResponse`, the zod configuration schema
(`HttpTemperatureConfigSchema`), and the refresh/caching life cycle of
`TemperatureService`. JavaScript numbers are modelled as exact rationals
extended with the special values Infinity, -Infinity and NaN; machine
floating point rounding is idealized away since every property of interest
concerns parse success or failure and small decimal values.
-/

namespace HttpTemp

/-- A JavaScript number as relevant to this code base: an exact finite
rational, one of the two infinities, or NaN. -/
inductive JsNum where
  | finite (q : ℚ)
  | inf
  | negInf
  | nan
deriving DecidableEq, Repr

/-- Embeds `const isNumeric = (val) => typeof val === "number" && !Number.isNaN(val)`
from `temperature-service.ts`. Every `JsNum` is a number, so only the
NaN check remains. Note the source does NOT exclude the infinities. -/
def isNumeric (t : JsNum) : Bool :=
  match t with
  | .nan => false
  | _ => true

/-- Is this number finite (spec-side notion used by the invariant claims)? -/
def isFiniteNum (t : JsNum) : Bool :=
  match t with
  | .finite _ => true
  | _ => false

/-- JavaScript whitespace characters skipped by `parseFloat` (the common ones). -/
def isJsWs (c : Char) : Bool :=
  c = ' ' || c = '\t' || c = '\n' || c = '\r'

/-- Decimal digit test. -/
def isDig (c : Char) : Bool :=
  '0' ≤ c && c ≤ '9'

/-- Numeric value of a decimal digit character. -/
def digVal (c : Char) : ℕ :=
  c.toNat - '0'.toNat

/-- Value of a big-endian list of decimal digit characters. -/
def digitsToNat (ds : List Char) : ℕ :=
  ds.foldl (fun a c => 10 * a + digVal c) 0

/-- Boolean test that a list starts with the given pattern. -/
def leadsWith : List Char → List Char → Bool
  | [], _ => true
  | _ :: _, [] => false
  | a :: as, b :: bs => a = b && leadsWith as bs

/-- Parses an optional exponent part `e`/`E` with optional sign followed by
digits, as in the ECMAScript `StrDecimalLiteral` grammar; when no valid
exponent follows, nothing is consumed and the exponent is 0. -/
def expPart (cs : List Char) : ℤ × List Char :=
  match cs with
  | c :: rest =>
    if c = 'e' || c = 'E' then
      match rest with
      | '+' :: r2 =>
        let ds := r2.takeWhile isDig
        if ds.isEmpty then (0, cs) else ((digitsToNat ds : ℤ), r2.dropWhile isDig)
      | '-' :: r2 =>
        let ds := r2.takeWhile isDig
        if ds.isEmpty then (0, cs) else (-(digitsToNat ds : ℤ), r2.dropWhile isDig)
      | r2 =>
        let ds := r2.takeWhile isDig
        if ds.isEmpty then (0, cs) else ((digitsToNat ds : ℤ), r2.dropWhile isDig)
    else (0, cs)
  | [] => (0, cs)

/-- The exact rational value of a decimal literal with integer digits `ipds`,
fraction digits `fpds` and exponent `e`, computed with `mkRat` so that it
evaluates by kernel reduction. -/
def decValue (ipds fpds : List Char) (e : ℤ) : ℚ :=
  let m : ℕ := digitsToNat ipds * 10 ^ fpds.length + digitsToNat fpds
  if 0 ≤ e then mkRat (m * 10 ^ e.toNat) (10 ^ fpds.length)
  else mkRat m (10 ^ (fpds.length + (-e).toNat))

/-- Parses an unsigned decimal literal `digits [. digits] [exp]` at the head of
the input, returning its exact value and the unconsumed remainder; fails when
no digit is present before the (optional) exponent. This is the longest-match
numeric scan performed by JavaScript `parseFloat`. -/
def decP (cs : List Char) : Option (ℚ × List Char) :=
  let ip := cs.takeWhile isDig
  let r1 := cs.dropWhile isDig
  let fr : List Char × List Char :=
    match r1 with
    | '.' :: r => (r.takeWhile isDig, r.dropWhile isDig)
    | _ => ([], r1)
  if ip.isEmpty && fr.1.isEmpty then none
  else
    let ep := expPart fr.2
    some (decValue ip fr.1 ep.1, ep.2)

/-- The literal `Infinity` recognised by `parseFloat`. -/
def infLit : List Char := ['I', 'n', 'f', 'i', 'n', 'i', 't', 'y']

/-- Parses an unsigned `parseFloat` literal: `Infinity` or a decimal literal. -/
def unsignedP (cs : List Char) : Option (JsNum × List Char) :=
  if leadsWith infLit cs then some (.inf, cs.drop 8)
  else
    match decP cs with
    | some (q, r) => some (.finite q, r)
    | none => none

/-- JavaScript unary negation on our number model. -/
def jsNeg : JsNum → JsNum
  | .finite q => .finite (-q)
  | .inf => .negInf
  | .negInf => .inf
  | .nan => .nan

/-- Parses a signed `parseFloat` literal. -/
def signedP (cs : List Char) : Option (JsNum × List Char) :=
  match cs with
  | '+' :: r => unsignedP r
  | '-' :: r => (unsignedP r).map (fun p => (jsNeg p.1, p.2))
  | _ => unsignedP cs

/-- Embeds JavaScript `parseFloat`: skip leading whitespace, then read the
longest prefix that is a signed decimal literal or `Infinity`; any trailing
content is ignored; yields NaN when no such prefix exists. -/
def parseFloat (s : String) : JsNum :=
  match signedP (s.data.dropWhile isJsWs) with
  | some (t, _) => t
  | none => .nan

/-- Spec-side notion: the whole body, after trimming surrounding whitespace,
parses as a single finite decimal number (no trailing content, no Infinity,
no NaN). -/
def strictFiniteParse (s : String) : Option ℚ :=
  match signedP (s.data.dropWhile isJsWs) with
  | some (.finite q, rest) => if rest.dropWhile isJsWs = [] then some q else none
  | _ => none

/-! ## JSON values and the response body parser

`parseTemperatureFromResponse` hands the response body to the external
`node-jq` runtime with the program `.FIELD | tonumber`. The JSON data model
and the evaluation of such a dotted/indexed path program are embedded here;
JSON numbers are exact rationals. -/

/-- A JSON value. -/
inductive Json where
  | null
  | bool (b : Bool)
  | num (q : ℚ)
  | str (s : String)
  | arr (elems : List Json)
  | obj (fields : List (String × Json))

/-- Hexadecimal digit value, if any (by character code: digits 48-57,
lower-case letters 97-102, upper-case letters 65-70). -/
def hexVal (c : Char) : Option ℕ :=
  let n := c.toNat
  if 48 ≤ n && n ≤ 57 then some (n - 48)
  else if 97 ≤ n && n ≤ 102 then some (n - 87)
  else if 65 ≤ n && n ≤ 70 then some (n - 55)
  else none

/-- Parses the characters of a JSON string after the opening quote, handling
the standard escapes; returns the decoded characters and the remainder after
the closing quote. -/
def pStrChars : List Char → Option (List Char × List Char)
  | '"' :: r => some ([], r)
  | '\\' :: c :: r =>
    match c with
    | '"' => (pStrChars r).map (fun p => ('"' :: p.1, p.2))
    | '\\' => (pStrChars r).map (fun p => ('\\' :: p.1, p.2))
    | '/' => (pStrChars r).map (fun p => ('/' :: p.1, p.2))
    | 'n' => (pStrChars r).map (fun p => ('\n' :: p.1, p.2))
    | 't' => (pStrChars r).map (fun p => ('\t' :: p.1, p.2))
    | 'r' => (pStrChars r).map (fun p => ('\r' :: p.1, p.2))
    | 'b' => (pStrChars r).map (fun p => ('\x08' :: p.1, p.2))
    | 'f' => (pStrChars r).map (fun p => ('\x0c' :: p.1, p.2))
    | 'u' =>
      match r with
      | a :: b :: c2 :: d :: r2 =>
        match hexVal a, hexVal b, hexVal c2, hexVal d with
        | some ha, some hb, some hc, some hd =>
          let code := ((ha * 16 + hb) * 16 + hc) * 16 + hd
          (pStrChars r2).map (fun p => (Char.ofNat code :: p.1, p.2))
        | _, _, _, _ => none
      | _ => none
    | _ => none
  | c :: r => (pStrChars r).map (fun p => (c :: p.1, p.2))
  | [] => none

/-- Parses an unsigned JSON number (integer part, optional fraction, optional
exponent). -/
def jNumCore (cs : List Char) : Option (ℚ × List Char) :=
  let ip := cs.takeWhile isDig
  if ip.isEmpty then none
  else
    let r1 := cs.dropWhile isDig
    match r1 with
    | '.' :: r =>
      let fp := r.takeWhile isDig
      if fp.isEmpty then none
      else
        let ep := expPart (r.dropWhile isDig)
        some (decValue ip fp ep.1, ep.2)
    | _ =>
      let ep := expPart r1
      some (decValue ip [] ep.1, ep.2)

/-- Parses a JSON number with optional leading minus sign. -/
def pNum (cs : List Char) : Option (ℚ × List Char) :=
  match cs with
  | '-' :: r => (jNumCore r).map (fun p => (-p.1, p.2))
  | _ => jNumCore cs

mutual

/-- Fueled recursive-descent parser for one JSON value. -/
def pVal : ℕ → List Char → Option (Json × List Char)
  | 0, _ => none
  | fuel + 1, cs0 =>
    let cs := cs0.dropWhile isJsWs
    match cs with
    | 'n' :: r => if leadsWith ['u', 'l', 'l'] r then some (.null, r.drop 3) else none
    | 't' :: r => if leadsWith ['r', 'u', 'e'] r then some (.bool true, r.drop 3) else none
    | 'f' :: r => if leadsWith ['a', 'l', 's', 'e'] r then some (.bool false, r.drop 4) else none
    | '"' :: r =>
      match pStrChars r with
      | some (chars, r2) => some (.str (String.mk chars), r2)
      | none => none
    | '[' :: r =>
      let r1 := r.dropWhile isJsWs
      match r1 with
      | ']' :: r2 => some (.arr [], r2)
      | _ =>
        match pArrItems fuel r1 with
        | some (xs, r2) => some (.arr xs, r2)
        | none => none
    | '\x7b' :: r =>
      let r1 := r.dropWhile isJsWs
      match r1 with
      | '\x7d' :: r2 => some (.obj [], r2)
      | _ =>
        match pObjItems fuel r1 with
        | some (fs, r2) => some (.obj fs, r2)
        | none => none
    | _ =>
      match pNum cs with
      | some (q, r) => some (.num q, r)
      | none => none

/-- Fueled parser for one-or-more comma-separated array items up to `]`. -/
def pArrItems : ℕ → List Char → Option (List Json × List Char)
  | 0, _ => none
  | fuel + 1, cs =>
    match pVal fuel cs with
    | some (j, r) =>
      let r1 := r.dropWhile isJsWs
      match r1 with
      | ',' :: r2 =>
        match pArrItems fuel r2 with
        | some (xs, r3) => some (j :: xs, r3)
        | none => none
      | ']' :: r2 => some ([j], r2)
      | _ => none
    | none => none

/-- Fueled parser for one-or-more comma-separated object members up to the
closing brace. -/
def pObjItems : ℕ → List Char → Option (List (String × Json) × List Char)
  | 0, _ => none
  | fuel + 1, cs0 =>
    let cs := cs0.dropWhile isJsWs
    match cs with
    | '"' :: r =>
      match pStrChars r with
      | some (kchars, r2) =>
        let r3 := r2.dropWhile isJsWs
        match r3 with
        | ':' :: r4 =>
          match pVal fuel r4 with
          | some (j, r5) =>
            let r6 := r5.dropWhile isJsWs
            match r6 with
            | ',' :: r7 =>
              match pObjItems fuel r7 with
              | some (fs, r8) => some ((String.mk kchars, j) :: fs, r8)
              | none => none
            | '\x7d' :: r7 => some ([(String.mk kchars, j)], r7)
            | _ => none
          | none => none
        | _ => none
      | none => none
    | _ => none

end

/-- Parses a whole string as a single JSON document (only whitespace may
follow the value). -/
def parseJson (s : String) : Option Json :=
  match pVal (2 * s.length + 8) s.data with
  | some (j, rest) => if rest.dropWhile isJsWs = [] then some j else none
  | none => none

/-! ## The jq path program `.FIELD | tonumber` -/

/-- One segment of a dotted/indexed jq path. -/
inductive PathSeg where
  | field (name : String)
  | index (i : ℕ)
deriving DecidableEq, Repr

/-- First character of a jq identifier. -/
def isIdentStart (c : Char) : Bool :=
  c.isAlpha || c = '_'

/-- Subsequent character of a jq identifier. -/
def isIdentChar (c : Char) : Bool :=
  c.isAlphanum || c = '_'

/-- Parses zero or more `[n]` array-index suffixes. -/
def pIndices : ℕ → List Char → Option (List PathSeg × List Char)
  | 0, _ => none
  | fuel + 1, cs =>
    match cs with
    | '[' :: r =>
      let ds := r.takeWhile isDig
      if ds.isEmpty then none
      else
        match r.dropWhile isDig with
        | ']' :: r2 =>
          match pIndices fuel r2 with
          | some (segs, r3) => some (.index (digitsToNat ds) :: segs, r3)
          | none => none
        | _ => none
    | _ => some ([], cs)

/-- Parses a dotted/indexed path: identifier segments separated by `.`, each
with optional `[n]` suffixes (the shape of `field_name` supported by the jq
program `.FIELD`). -/
def pSegs : ℕ → List Char → Option (List PathSeg)
  | 0, _ => none
  | fuel + 1, cs =>
    match cs with
    | c :: _ =>
      if isIdentStart c then
        let idChars := cs.takeWhile isIdentChar
        match pIndices fuel (cs.dropWhile isIdentChar) with
        | some (idx, rest) =>
          match rest with
          | [] => some (.field (String.mk idChars) :: idx)
          | '.' :: r2 =>
            match pSegs fuel r2 with
            | some segs => some (.field (String.mk idChars) :: (idx ++ segs))
            | none => none
          | _ => none
        | none => none
      else none
    | [] => none

/-- Parses a whole `field_name` as a dotted/indexed path. -/
def parsePath (s : String) : Option (List PathSeg) :=
  pSegs (s.length + 2) s.data

/-- One jq indexing step: `.name` yields the field (or `null` when absent) on
objects and `null`, and errors on other values; `[i]` yields the element (or
`null` when out of bounds) on arrays and `null`, and errors otherwise. -/
def resolveSeg (v : Json) (seg : PathSeg) : Except String Json :=
  match seg, v with
  | .field n, .obj fs =>
    .ok (match fs.find? (fun kv => kv.1 == n) with
      | some kv => kv.2
      | none => .null)
  | .field _, .null => .ok .null
  | .field _, _ => .error "jq: Cannot index value with field"
  | .index i, .arr xs => .ok (xs.getD i .null)
  | .index _, .null => .ok .null
  | .index _, _ => .error "jq: Cannot index value with number"

/-- Iterated jq path resolution. -/
def resolvePath (segs : List PathSeg) (v : Json) : Except String Json :=
  match segs with
  | [] => .ok v
  | s :: rest =>
    match resolveSeg v s with
    | .ok v2 => resolvePath rest v2
    | .error e => .error e

/-- A full-string signed decimal parse (used for jq `tonumber` on strings):
the entire string must be a decimal literal. -/
def strictDecimal (s : String) : Option ℚ :=
  match s.data with
  | '-' :: r =>
    match decP r with
    | some (q, []) => some (-q)
    | _ => none
  | '+' :: r =>
    match decP r with
    | some (q, []) => some q
    | _ => none
  | cs =>
    match decP cs with
    | some (q, []) => some q
    | _ => none

/-- jq `tonumber`: numbers pass through, strings must parse fully as decimal
numbers, every other value is an error. -/
def jsonToNumber (v : Json) : Option ℚ :=
  match v with
  | .num q => some q
  | .str s => strictDecimal s
  | _ => none

/-- Models the external `node-jq` run of the program `.FIELD | tonumber` on
the response body with string input and string output, composed with the
`parseFloat` the source applies to the printed result. jq prints the decimal
number and `parseFloat` reads it back, so the composition is the identity on
the numeric value; failures are the jq compile error (bad path), the JSON
parse error (malformed or empty body), the indexing errors, and the
`tonumber` error. -/
def jqTonumber (path body : String) : Except String ℚ :=
  match parsePath path with
  | none => .error "jq: error: syntax error"
  | some segs =>
    match parseJson body with
    | none => .error "jq: error: parse error"
    | some j =>
      match resolvePath segs j with
      | .error e => .error e
      | .ok v =>
        match jsonToNumber v with
        | some q => .ok q
        | none => .error "jq: error: cannot be parsed as a number"

/-- Spec-side description of field extraction for non-empty `field_name`:
the body parses as JSON, the field name parses as a dotted/indexed path, the
path resolves, and the resolved value is a number or a fully-decimal string. -/
def extractedNumber (path body : String) : Option ℚ :=
  match parsePath path with
  | none => none
  | some segs =>
    match parseJson body with
    | none => none
    | some j =>
      match resolvePath segs j with
      | .error _ => none
      | .ok v => jsonToNumber v

/-- Embeds `parseTemperatureFromResponse` from `temperature-service.ts`:
with a truthy (non-empty) `field_name` the body goes through
`jq(".FIELD | tonumber")` and `parseFloat` of the printed result; otherwise
`parseFloat` of the whole body; in both branches a final `isNumeric` check
throws `Non-numeric response received` on failure. -/
def parseTemperatureFromResponse (field_name body : String) : Except String JsNum :=
  if field_name ≠ "" then
    match jqTonumber field_name body with
    | .error e => .error e
    | .ok q =>
      let temperature := JsNum.finite q
      if isNumeric temperature then .ok temperature
      else .error "Non-numeric response received"
  else
    let temperature := parseFloat body
    if isNumeric temperature then .ok temperature
    else .error "Non-numeric response received"

/-! ## Configuration schema (`config.ts`, zod `HttpTemperatureConfigSchema`) -/

/-- `http_method: z.enum(["GET", "POST"])`. -/
inductive HttpMethod where
  | GET
  | POST
deriving DecidableEq, Repr

/-- `units: z.enum(["C", "F"])`. -/
inductive TempUnits where
  | C
  | F
deriving DecidableEq, Repr

/-- Deprecated `http_protocol: z.enum(["http", "https"])`. -/
inductive HttpProtocol where
  | http
  | https
deriving DecidableEq, Repr

/-- The `auth` object: basic-auth user and password. -/
structure AuthConfig where
  user : String
  pass : String
deriving DecidableEq, Repr

/-- The fully-validated, fully-defaulted configuration produced by
`HttpTemperatureConfigSchema` (`HttpTemperatureConfig` in the source). -/
structure Config where
  accessory : Option String
  url : String
  name : String
  auth : Option AuthConfig
  debug : Bool
  field_name : String
  http_headers : Option (List (String × String))
  http_method : HttpMethod
  http_protocol : Option HttpProtocol
  manufacturer : String
  min_temp : ℚ
  max_temp : ℚ
  model : String
  serial : String
  timeout : ℚ
  units : TempUnits
  update_interval : ℚ
deriving DecidableEq, Repr

/-- One zod validation issue: a path into the raw configuration and a
human-readable message. -/
structure Issue where
  path : List String
  message : String
deriving DecidableEq, Repr

/-- A loosely-typed raw configuration value (what `safeParse` receives).
JavaScript `undefined` is represented by key absence in objects. -/
inductive RawValue where
  | null
  | bool (b : Bool)
  | num (q : ℚ)
  | str (s : String)
  | arr (elems : List RawValue)
  | obj (fields : List (String × RawValue))

/-- Looks a key up in a raw object field list. -/
def lookupRaw (fields : List (String × RawValue)) (key : String) : Option RawValue :=
  match fields.find? (fun kv => kv.1 == key) with
  | some kv => some kv.2
  | none => none

/-- The keys of a raw object (empty for non-objects). -/
def rawKeys : RawValue → List String
  | .obj fs => fs.map Prod.fst
  | _ => []

/-- Simplified model of the zod `.url()` string check: an alphabetic scheme
followed by `://` and a non-empty remainder. -/
def isValidUrl (s : String) : Bool :=
  let cs := s.data
  let scheme := cs.takeWhile (fun c => c.isAlpha)
  let rest := cs.dropWhile (fun c => c.isAlpha)
  !scheme.isEmpty && leadsWith [':', '/', '/'] rest && decide (3 < rest.length)

/-- `url: z.string().url().min(1)` (required). -/
def vUrl (fields : List (String × RawValue)) : List Issue × String :=
  match lookupRaw fields "url" with
  | none => ([⟨["url"], "Required"⟩], "")
  | some (.str s) =>
    ((if isValidUrl s then [] else [⟨["url"], "Invalid url"⟩]) ++
      (if s.length < 1 then [⟨["url"], "String must contain at least 1 character"⟩] else []), s)
  | some _ => ([⟨["url"], "Expected string"⟩], "")

/-- `name: z.string().min(1)` (required). -/
def vName (fields : List (String × RawValue)) : List Issue × String :=
  match lookupRaw fields "name" with
  | none => ([⟨["name"], "Required"⟩], "")
  | some (.str s) =>
    (if s.length < 1 then [⟨["name"], "String must contain at least 1 character"⟩] else [], s)
  | some _ => ([⟨["name"], "Expected string"⟩], "")

/-- A required `z.string().min(1)` member of the `auth` object. -/
def vAuthMember (fields : List (String × RawValue)) (key : String) : List Issue × String :=
  match lookupRaw fields key with
  | none => ([⟨["auth", key], "Required"⟩], "")
  | some (.str s) =>
    (if s.length < 1 then [⟨["auth", key], "String must contain at least 1 character"⟩] else [], s)
  | some _ => ([⟨["auth", key], "Expected string"⟩], "")

/-- `auth: z.object({user, pass}).optional()`. -/
def vAuth (fields : List (String × RawValue)) : List Issue × Option AuthConfig :=
  match lookupRaw fields "auth" with
  | none => ([], none)
  | some (.obj afs) =>
    let u := vAuthMember afs "user"
    let p := vAuthMember afs "pass"
    (u.1 ++ p.1, some ⟨u.2, p.2⟩)
  | some _ => ([⟨["auth"], "Expected object"⟩], none)

/-- `debug: z.boolean().default(false)`. -/
def vDebug (fields : List (String × RawValue)) : List Issue × Bool :=
  match lookupRaw fields "debug" with
  | none => ([], false)
  | some (.bool b) => ([], b)
  | some _ => ([⟨["debug"], "Expected boolean"⟩], false)

/-- A `z.string().default(dflt)` field (no further checks):
used for `field_name`, `manufacturer`, `model` and `serial`. -/
def defStr (fields : List (String × RawValue)) (key dflt : String) : List Issue × String :=
  match lookupRaw fields key with
  | none => ([], dflt)
  | some (.str s) => ([], s)
  | some _ => ([⟨[key], "Expected string"⟩], dflt)

/-- The `z.record` member checks for one `http_headers` entry: key
`z.string().min(1)`, value `z.string().min(1)`. -/
def vHeaderEntry (kv : String × RawValue) : List Issue :=
  (if kv.1.length < 1
    then [(⟨["http_headers", kv.1], "String must contain at least 1 character"⟩ : Issue)]
    else []) ++
  (match kv.2 with
    | .str s =>
      if s.length < 1
        then [(⟨["http_headers", kv.1], "String must contain at least 1 character"⟩ : Issue)]
        else []
    | _ => [(⟨["http_headers", kv.1], "Expected string"⟩ : Issue)])

/-- `http_headers: z.record(z.string().min(1), z.string().min(1)).optional()`. -/
def vHeaders (fields : List (String × RawValue)) :
    List Issue × Option (List (String × String)) :=
  match lookupRaw fields "http_headers" with
  | none => ([], none)
  | some (.obj hfs) =>
    ((hfs.map vHeaderEntry).flatten,
      some (hfs.map (fun kv => (kv.1, match kv.2 with | .str s => s | _ => ""))))
  | some _ => ([⟨["http_headers"], "Expected object"⟩], none)

/-- `http_method: z.enum(["GET", "POST"]).default("GET")`. -/
def vMethod (fields : List (String × RawValue)) : List Issue × HttpMethod :=
  match lookupRaw fields "http_method" with
  | none => ([], .GET)
  | some (.str s) =>
    ((if s = "GET" || s = "POST" then [] else [⟨["http_method"], "Invalid enum value"⟩]),
      if s = "POST" then .POST else .GET)
  | some _ => ([⟨["http_method"], "Expected string"⟩], .GET)

/-- `http_protocol: z.enum(["http", "https"]).optional()`. -/
def vProtocol (fields : List (String × RawValue)) : List Issue × Option HttpProtocol :=
  match lookupRaw fields "http_protocol" with
  | none => ([], none)
  | some (.str s) =>
    ((if s = "http" || s = "https" then [] else [⟨["http_protocol"], "Invalid enum value"⟩]),
      if s = "https" then some .https else some .http)
  | some _ => ([⟨["http_protocol"], "Expected string"⟩], none)

/-- `accessory: z.string().optional()` (supplied by Homebridge). -/
def vAccessory (fields : List (String × RawValue)) : List Issue × Option String :=
  match lookupRaw fields "accessory" with
  | none => ([], none)
  | some (.str s) => ([], some s)
  | some _ => ([⟨["accessory"], "Expected string"⟩], none)

/-- A `z.number().default(dflt)` field: used for `min_temp` and `max_temp`. -/
def defNum (fields : List (String × RawValue)) (key : String) (dflt : ℚ) : List Issue × ℚ :=
  match lookupRaw fields key with
  | none => ([], dflt)
  | some (.num q) => ([], q)
  | some _ => ([⟨[key], "Expected number"⟩], dflt)

/-- A `z.number().min(lo).default(dflt)` field: used for `timeout` and
`update_interval`. -/
def defNumMin (fields : List (String × RawValue)) (key : String) (lo dflt : ℚ) :
    List Issue × ℚ :=
  match lookupRaw fields key with
  | none => ([], dflt)
  | some (.num q) =>
    (if q < lo then [⟨[key], "Number must be greater than or equal to 0"⟩] else [], q)
  | some _ => ([⟨[key], "Expected number"⟩], dflt)

/-- `units: z.enum(["C", "F"]).default("C")`. -/
def vUnits (fields : List (String × RawValue)) : List Issue × TempUnits :=
  match lookupRaw fields "units" with
  | none => ([], .C)
  | some (.str s) =>
    ((if s = "C" || s = "F" then [] else [⟨["units"], "Invalid enum value"⟩]),
      if s = "F" then .F else .C)
  | some _ => ([⟨["units"], "Expected string"⟩], .C)

/-- The keys the zod object schema recognises. -/
def schemaKeys : List String :=
  ["accessory", "url", "name", "auth", "debug", "field_name", "http_headers",
   "http_method", "http_protocol", "manufacturer", "min_temp", "max_temp",
   "model", "serial", "timeout", "units", "update_interval"]

/-- The `.strict()` closed-world check: every unrecognised key is an issue. -/
def strictIssues (fields : List (String × RawValue)) : List Issue :=
  (fields.filter (fun kv => !(decide (kv.1 ∈ schemaKeys)))).map
    (fun kv => ⟨[kv.1], "Unrecognized key"⟩)

/-- Every issue collected over a raw configuration object: the `.strict()`
unknown-key issues followed by the issues of each field check in schema order. -/
def allIssues (fields : List (String × RawValue)) : List Issue :=
  strictIssues fields ++ (vAccessory fields).1 ++ (vUrl fields).1 ++
    (vName fields).1 ++ (vAuth fields).1 ++ (vDebug fields).1 ++
    (defStr fields "field_name" "temperature").1 ++ (vHeaders fields).1 ++
    (vMethod fields).1 ++ (vProtocol fields).1 ++
    (defStr fields "manufacturer" "@metbosch").1 ++
    (defNum fields "min_temp" (-100)).1 ++ (defNum fields "max_temp" 130).1 ++
    (defStr fields "model" "Model not available").1 ++
    (defStr fields "serial" "Non-defined serial").1 ++
    (defNumMin fields "timeout" 0 5000).1 ++ (vUnits fields).1 ++
    (defNumMin fields "update_interval" 0 120000).1

/-- The typed configuration assembled from the per-field parses (meaningful
when no issue was collected). -/
def buildConfig (fields : List (String × RawValue)) : Config :=
  { accessory := (vAccessory fields).2
    url := (vUrl fields).2
    name := (vName fields).2
    auth := (vAuth fields).2
    debug := (vDebug fields).2
    field_name := (defStr fields "field_name" "temperature").2
    http_headers := (vHeaders fields).2
    http_method := (vMethod fields).2
    http_protocol := (vProtocol fields).2
    manufacturer := (defStr fields "manufacturer" "@metbosch").2
    min_temp := (defNum fields "min_temp" (-100)).2
    max_temp := (defNum fields "max_temp" 130).2
    model := (defStr fields "model" "Model not available").2
    serial := (defStr fields "serial" "Non-defined serial").2
    timeout := (defNumMin fields "timeout" 0 5000).2
    units := (vUnits fields).2
    update_interval := (defNumMin fields "update_interval" 0 120000).2 }

/-- Validation of a raw configuration object: all issues, or the typed
configuration. -/
def validateFields (fields : List (String × RawValue)) : Except (List Issue) Config :=
  if (allIssues fields).isEmpty then .ok (buildConfig fields)
  else .error (allIssues fields)

/-- Embeds `HttpTemperatureConfigSchema.safeParse`: collects the issues of
every field check plus the strict check, and on success builds the typed,
fully-defaulted configuration. -/
def validateConfig (raw : RawValue) : Except (List Issue) Config :=
  match raw with
  | .obj fields => validateFields fields
  | _ => .error [⟨[], "Expected object"⟩]

/-! ## Outbound request construction (`getFetchTemperatureRequest`) -/

/-- Lower-cases a string (HTTP header names are case-insensitive). -/
def lowerStr (s : String) : String :=
  String.mk (s.data.map Char.toLower)

/-- Case-insensitive lookup in a header list (`Headers.get`). -/
def lookupHeader (hs : List (String × String)) (k : String) : Option String :=
  match hs.find? (fun kv => lowerStr kv.1 == lowerStr k) with
  | some kv => some kv.2
  | none => none

/-- `new Headers(this.config.http_headers)`: the configured record, or empty
when absent. -/
def headersInit (o : Option (List (String × String))) : List (String × String) :=
  match o with
  | some hs => hs
  | none => []

/-- `Headers.set`: removes every entry whose name matches case-insensitively
and appends the new entry. -/
def headerSet (hs : List (String × String)) (k v : String) : List (String × String) :=
  hs.filter (fun kv => !(lowerStr kv.1 == lowerStr k)) ++ [(k, v)]

/-- UTF-8 encoding of one character (`Buffer.from(string)` uses UTF-8). -/
def utf8Bytes (c : Char) : List ℕ :=
  let n := c.toNat
  if n < 128 then [n]
  else if n < 2048 then [192 + n / 64, 128 + n % 64]
  else if n < 65536 then [224 + n / 4096, 128 + (n / 64) % 64, 128 + n % 64]
  else [240 + n / 262144, 128 + (n / 4096) % 64, 128 + (n / 64) % 64, 128 + n % 64]

/-- UTF-8 bytes of a string. -/
def strBytes (s : String) : List ℕ :=
  (s.data.map utf8Bytes).flatten

/-- The base64 alphabet. -/
def base64Alphabet : List Char :=
  "ABCDEFGHIJKLMNOPQRSTUVWXYZabcdefghijklmnopqrstuvwxyz0123456789+/".data

/-- The base64 character of a 6-bit group. -/
def b64Char (n : ℕ) : Char :=
  base64Alphabet.getD n 'A'

/-- Standard base64 encoding (`Buffer.toString("base64")`). -/
def base64Encode : List ℕ → List Char
  | [] => []
  | [b1] => [b64Char (b1 / 4), b64Char (b1 % 4 * 16), '=', '=']
  | [b1, b2] => [b64Char (b1 / 4), b64Char (b1 % 4 * 16 + b2 / 16), b64Char (b2 % 16 * 4), '=']
  | b1 :: b2 :: b3 :: rest =>
    b64Char (b1 / 4) :: b64Char (b1 % 4 * 16 + b2 / 16) ::
      b64Char (b2 % 16 * 4 + b3 / 64) :: b64Char (b3 % 64) :: base64Encode rest

/-- The `Basic` authorization header value the source builds with a template
literal: the text `Basic ` followed by the base64 of the UTF-8 bytes of
`user + ":" + pass`. -/
def basicAuthValue (user pass : String) : String :=
  "Basic " ++ String.mk (base64Encode (strBytes (user ++ ":" ++ pass)))

/-- The observable parts of the `Request` the service builds (the abort
signal is modelled separately in `getTemperature`). -/
structure FetchRequest where
  method : HttpMethod
  url : String
  headers : List (String × String)
deriving DecidableEq, Repr

/-- Embeds `getFetchTemperatureRequest`: headers from the config, an
`Authorization: Basic ...` entry set (replacing any present) when `auth` is
configured, method and URL from the config. -/
def getFetchTemperatureRequest (cfg : Config) : FetchRequest :=
  let headers := headersInit cfg.http_headers
  let headers2 :=
    match cfg.auth with
    | some a => headerSet headers "Authorization" (basicAuthValue a.user a.pass)
    | none => headers
  ⟨cfg.http_method, cfg.url, headers2⟩

/-! ## The refresh life cycle (`TemperatureService`)

One refresh is `getTemperature`: a fetch raced against the `timeout`-ms
abort timer, then `parseTemperatureFromResponse`. The network is modelled by
the outcome of that race: a body arriving in time, the deadline elapsing
first (the abort fires, `fetch` rejects with `AbortError`), or a transport
error. -/

/-- Outcome of one fetch attempt under the abort deadline. -/
inductive FetchOutcome where
  | response (body : String)
  | timeout
  | transportError
deriving DecidableEq, Repr

/-- Embeds `getTemperature`: on a timely response the parsed temperature (a
parse failure propagates as an error), on timeout the `AbortError` is caught
and `null` is returned (the abort handle having been invoked once), on any
other error the error propagates. The second component counts
`abortController.abort()` invocations. -/
def getTemperature (cfg : Config) (o : FetchOutcome) :
    Except String (Option JsNum) × ℕ :=
  match o with
  | .response body =>
    match parseTemperatureFromResponse cfg.field_name body with
    | .ok t => (.ok (some t), 0)
    | .error e => (.error e, 0)
  | .timeout => (.ok none, 1)
  | .transportError => (.error "fetch failed", 0)

/-- The `try { ... await this.getTemperature() } catch { null }` pattern
around one refresh: the refreshed cache value. -/
def refreshOnce (cfg : Config) (o : FetchOutcome) : Option JsNum :=
  match (getTemperature cfg o).1 with
  | .ok v => v
  | .error _ => none

/-- Embeds one `setInterval` tick from the constructor: the cache is set to
the refresh result (`null` on any caught error) and the callback is invoked
exactly once with the new cache value (`finally` block). Returns the new
cache value and the list of callback invocations. -/
def timerTick (cfg : Config) (o : FetchOutcome) : Option JsNum × List (Option JsNum) :=
  let v := refreshOnce cfg o
  (v, [v])

/-- Result of one `getCurrentTemperature` call: the new cache value, the
returned value, how many fetches were issued, and the callback invocations. -/
structure DemandResult where
  state : Option JsNum
  ret : Option JsNum
  fetches : ℕ
  callbacks : List (Option JsNum)
deriving DecidableEq, Repr

/-- Embeds `getCurrentTemperature`: when `update_interval` is falsy (0) the
call refreshes (catching any error into `null`) and returns the new cache
value; otherwise it returns the cache untouched. It never invokes the
external callback. -/
def getCurrentTemperature (cfg : Config) (st : Option JsNum) (o : FetchOutcome) :
    DemandResult :=
  if cfg.update_interval = 0 then
    let v := refreshOnce cfg o
    ⟨v, v, 1, []⟩
  else ⟨st, st, 0, []⟩

/-- Result of the (private) constructor: initial cache, whether the interval
timer was armed, and the callback invocations made during construction. -/
structure InitResult where
  state : Option JsNum
  timerArmed : Bool
  callbacks : List (Option JsNum)
deriving DecidableEq, Repr

/-- Embeds the `TemperatureService` constructor: `__currentTemperature`
starts at `null`, the timer is armed exactly when `update_interval > 0`, and
no callback is invoked at construction. -/
def serviceInit (cfg : Config) : InitResult :=
  ⟨none, decide (0 < cfg.update_interval), []⟩

/-- A service instance as created by `withAccessoryConfig`. -/
structure TemperatureService where
  config : Config
  currentTemperature : Option JsNum
deriving DecidableEq, Repr

/-- Embeds `TemperatureService.withAccessoryConfig`: `safeParse` the raw
configuration; on success construct the service (initial cache `null`), on
failure throw the zod error with its issues. -/
def withAccessoryConfig (raw : RawValue) : Except (List Issue) TemperatureService :=
  match validateConfig raw with
  | .ok cfg => .ok ⟨cfg, none⟩
  | .error issues => .error issues

/-- The cache states reachable in one service instance: `null` from the
constructor, then only the writes performed by timer ticks and on-demand
reads. -/
inductive Reachable (cfg : Config) : Option JsNum → Prop where
  | init : Reachable cfg none
  | tick (o : FetchOutcome) (st : Option JsNum) :
      Reachable cfg st → Reachable cfg (timerTick cfg o).1
  | demand (o : FetchOutcome) (st : Option JsNum) :
      Reachable cfg st → Reachable cfg (getCurrentTemperature cfg st o).state

end HttpTemp

deriving instance DecidableEq for Except

namespace HttpTemp

/-! ## Helper lemmas -/

/-- A successful extraction never yields NaN: both branches of
`parseTemperatureFromResponse` guard their result with `isNumeric`. -/
theorem parse_ok_isNumeric (f b : String) (t : JsNum)
    (h : parseTemperatureFromResponse f b = .ok t) : isNumeric t = true := by
  unfold parseTemperatureFromResponse at h
  split at h
  · cases hj : jqTonumber f b with
    | error e => rw [hj] at h; simp at h
    | ok q =>
      rw [hj] at h
      simp only [isNumeric, if_true] at h
      cases h
      rfl
  · cases hnum : isNumeric (parseFloat b) with
    | false => simp [hnum] at h
    | true =>
      simp [hnum] at h
      subst h
      exact hnum

/-- The cache value written by one refresh is `none` or a non-NaN number. -/
theorem refreshOnce_cases (cfg : Config) (o : FetchOutcome) :
    refreshOnce cfg o = none ∨
      ∃ t, refreshOnce cfg o = some t ∧ isNumeric t = true := by
  cases o with
  | response body =>
    cases hp : parseTemperatureFromResponse cfg.field_name body with
    | ok t =>
      exact Or.inr ⟨t, by simp [refreshOnce, getTemperature, hp],
        parse_ok_isNumeric _ _ _ hp⟩
    | error e => exact Or.inl (by simp [refreshOnce, getTemperature, hp])
  | timeout => exact Or.inl rfl
  | transportError => exact Or.inl rfl

/-! ## Claim C1 (corrected)

The empty-`field_name` branch is `parseFloat(body)` guarded only by a NaN
check: it is a longest-prefix parse, so `"5abc"` is accepted with value `5`
and `"Infinity"` is accepted with value Infinity, contrary to the claim
that the whole trimmed body must parse as a finite number. -/

/-- C1 counterexample: with empty `field_name`, extraction on body `"5abc"`
succeeds with value 5 even though the whole trimmed body does not parse as a
finite decimal number, refuting the claimed equivalence at this input. -/
theorem empty_field_garbage_tail_accepted :
    parseTemperatureFromResponse "" "5abc" = Except.ok (JsNum.finite 5) ∧
    strictFiniteParse "5abc" = none ∧
    parseTemperatureFromResponse "" "Infinity" = Except.ok JsNum.inf := by
  refine ⟨by decide, by decide, by decide⟩

/-- C1 (amended): for every response body consumed with empty `field_name`,
extraction succeeds exactly when JavaScript `parseFloat` of the body is not
NaN, the extracted value being that (longest numeric prefix) parse — which
may be Infinity and may ignore trailing content; in particular every body
whose whole trimmed text parses as a finite decimal `q` succeeds with `q`. -/
theorem empty_field_parseFloat_semantics (body : String) :
    (parseTemperatureFromResponse "" body = Except.ok (parseFloat body) ↔
      isNumeric (parseFloat body) = true) ∧
    (∀ q : ℚ, strictFiniteParse body = some q →
      parseTemperatureFromResponse "" body = Except.ok (JsNum.finite q)) := by
  have hbranch : parseTemperatureFromResponse "" body =
      (if isNumeric (parseFloat body) then .ok (parseFloat body)
        else .error "Non-numeric response received") := by
    unfold parseTemperatureFromResponse
    rw [if_neg (by simp)]
  constructor
  · cases hnum : isNumeric (parseFloat body) <;> simp [hbranch, hnum]
  · intro q hq
    have hpf : parseFloat body = .finite q := by
      unfold strictFiniteParse at hq
      unfold parseFloat
      cases hs : signedP (body.data.dropWhile isJsWs) with
      | none => rw [hs] at hq; simp at hq
      | some p =>
        rw [hs] at hq
        obtain ⟨t, rest⟩ := p
        cases t with
        | finite q2 =>
          simp only at hq
          split at hq
          · cases hq; rfl
          · simp at hq
        | inf => simp at hq
        | negInf => simp at hq
        | nan => simp at hq
    rw [hbranch, hpf]
    rfl

/-- C1 witness: the amended theorem at the concrete body `" 42 "`. -/
theorem empty_field_parseFloat_semantics_witness :
    strictFiniteParse " 42 " = some 42 ∧
    parseTemperatureFromResponse "" " 42 " = Except.ok (JsNum.finite 42) :=
  ⟨by decide, (empty_field_parseFloat_semantics " 42 ").2 42 (by decide)⟩

/-! ## Claim C2 (confirmed) -/

/-- The jq run `.FIELD | tonumber` succeeds with `q` exactly when the
spec-side dotted/indexed path extraction yields `q`. -/
theorem jqTonumber_eq_extracted (p b : String) (q : ℚ) :
    jqTonumber p b = .ok q ↔ extractedNumber p b = some q := by
  unfold jqTonumber extractedNumber
  cases hp : parsePath p with
  | none => simp [hp]
  | some segs =>
    cases hj : parseJson b with
    | none => simp [hp, hj]
    | some j =>
      cases hr : resolvePath segs j with
      | error e => simp [hp, hj, hr]
      | ok v =>
        cases hn : jsonToNumber v with
        | none => simp [hp, hj, hr, hn]
        | some q2 => simp [hp, hj, hr, hn]

/-- C2: with non-empty `field_name`, extraction succeeds with `t` exactly
when `field_name` read as a dotted/indexed path into the body parsed as JSON
reaches a number or a fully-decimal string with value `q` and `t` is that
number; whenever that path extraction fails (malformed or empty body,
unresolvable path, or a value that is null, an array, an object, a boolean
or a non-decimal string), the refresh operation fails with a hard
`Except.error` — never the timeout soft `ok none`. -/
theorem field_path_extraction (field_name body : String) (h : field_name ≠ "") :
    (∀ t : JsNum, parseTemperatureFromResponse field_name body = Except.ok t ↔
      ∃ q : ℚ, extractedNumber field_name body = some q ∧ t = JsNum.finite q) ∧
    (extractedNumber field_name body = none →
      ∃ e, parseTemperatureFromResponse field_name body = Except.error e) := by
  constructor
  · intro t
    constructor
    · intro hok
      unfold parseTemperatureFromResponse at hok
      rw [if_pos h] at hok
      cases hj : jqTonumber field_name body with
      | error e => rw [hj] at hok; simp at hok
      | ok q =>
        rw [hj] at hok
        simp [isNumeric] at hok
        exact ⟨q, (jqTonumber_eq_extracted _ _ q).mp hj, hok.symm⟩
    · rintro ⟨q, hq, rfl⟩
      have hj : jqTonumber field_name body = .ok q :=
        (jqTonumber_eq_extracted _ _ q).mpr hq
      unfold parseTemperatureFromResponse
      rw [if_pos h, hj]
      rfl
  · intro hnone
    cases hj : jqTonumber field_name body with
    | error e =>
      refine ⟨e, ?_⟩
      unfold parseTemperatureFromResponse
      rw [if_pos h, hj]
    | ok q =>
      exfalso
      have hq := (jqTonumber_eq_extracted _ _ q).mp hj
      rw [hnone] at hq
      simp at hq

/-- The nested example body from the repository tests. -/
def jsonBodyEx : String :=
  "\x7b \"data\": \x7b \"values\": [ \x7b \"temperature\": 5 \x7d, \x7b \"temperature\": 10 \x7d ] \x7d \x7d"

/-- C2 witness: the theorem applied at the dotted/indexed path
`data.values[0].temperature` and the nested example body, yielding 5. -/
theorem field_path_extraction_witness :
    parseTemperatureFromResponse "data.values[0].temperature" jsonBodyEx =
      Except.ok (JsNum.finite 5) :=
  ((field_path_extraction "data.values[0].temperature" jsonBodyEx (by decide)).1
    (JsNum.finite 5)).mpr ⟨5, by decide, rfl⟩

/-! ## Claim C3 (confirmed) -/

/-- C3: a refresh whose request hits the deadline invokes the abort handle
exactly once and resolves to `null` without an error; and the soft
`Except.ok none` outcome arises only from the timeout. -/
theorem timeout_soft_failure (cfg : Config) :
    getTemperature cfg FetchOutcome.timeout = (Except.ok none, 1) ∧
    ∀ o : FetchOutcome,
      ((getTemperature cfg o).1 = Except.ok none ↔ o = FetchOutcome.timeout) := by
  refine ⟨rfl, ?_⟩
  intro o
  cases o with
  | response body =>
    simp only [getTemperature]
    constructor
    · intro h
      cases hp : parseTemperatureFromResponse cfg.field_name body with
      | ok t => rw [hp] at h; simp at h
      | error e => rw [hp] at h; simp at h
    · intro h; simp at h
  | timeout => simp [getTemperature]
  | transportError => simp [getTemperature]

/-! ## Validation issue lemmas (for claim C6)

Every issue any field check can emit carries a literal, non-empty message. -/

/-- Flattened mapped issue lists inherit the per-element message property. -/
theorem mem_flatten_map_msgs {α : Type} (f : α → List Issue) (xs : List α)
    (hf : ∀ x ∈ xs, ∀ i ∈ f x, i.message ≠ "") :
    ∀ i ∈ (xs.map f).flatten, i.message ≠ "" := by
  intro i hi
  rw [List.mem_flatten] at hi
  obtain ⟨l, hl, hil⟩ := hi
  rw [List.mem_map] at hl
  obtain ⟨x, hx, rfl⟩ := hl
  exact hf x hx i hil

/-- The `url` check only emits non-empty messages. -/
theorem vUrl_msgs (fields : List (String × RawValue)) :
    ∀ i ∈ (vUrl fields).1, i.message ≠ "" := by
  intro i hi
  unfold vUrl at hi
  split at hi <;> simp at hi
  · subst hi; simp
  · rcases hi with ⟨h1, rfl⟩ | ⟨h1, rfl⟩ <;> simp
  · subst hi; simp

/-- The `name` check only emits non-empty messages. -/
theorem vName_msgs (fields : List (String × RawValue)) :
    ∀ i ∈ (vName fields).1, i.message ≠ "" := by
  intro i hi
  unfold vName at hi
  split at hi <;> simp at hi
  · subst hi; simp
  · rcases hi with ⟨h1, rfl⟩; simp
  · subst hi; simp

/-- The `auth` member checks only emit non-empty messages. -/
theorem vAuthMember_msgs (fields : List (String × RawValue)) (key : String) :
    ∀ i ∈ (vAuthMember fields key).1, i.message ≠ "" := by
  intro i hi
  unfold vAuthMember at hi
  split at hi <;> simp at hi
  · subst hi; simp
  · rcases hi with ⟨h1, rfl⟩; simp
  · subst hi; simp

/-- The `auth` check only emits non-empty messages. -/
theorem vAuth_msgs (fields : List (String × RawValue)) :
    ∀ i ∈ (vAuth fields).1, i.message ≠ "" := by
  intro i hi
  unfold vAuth at hi
  split at hi <;> simp at hi
  · rcases hi with hi | hi
    · exact vAuthMember_msgs _ "user" i hi
    · exact vAuthMember_msgs _ "pass" i hi
  · subst hi; simp

/-- The `debug` check only emits non-empty messages. -/
theorem vDebug_msgs (fields : List (String × RawValue)) :
    ∀ i ∈ (vDebug fields).1, i.message ≠ "" := by
  intro i hi
  unfold vDebug at hi
  split at hi <;> simp at hi
  subst hi; simp

/-- Defaulted string checks only emit non-empty messages. -/
theorem defStr_msgs (fields : List (String × RawValue)) (key dflt : String) :
    ∀ i ∈ (defStr fields key dflt).1, i.message ≠ "" := by
  intro i hi
  unfold defStr at hi
  split at hi <;> simp at hi
  subst hi; simp

/-- One `http_headers` entry check only emits non-empty messages. -/
theorem vHeaderEntry_msgs (kv : String × RawValue) :
    ∀ i ∈ vHeaderEntry kv, i.message ≠ "" := by
  intro i hi
  unfold vHeaderEntry at hi
  rw [List.mem_append] at hi
  rcases hi with hi | hi
  · split at hi <;> simp at hi
    subst hi; simp
  · split at hi
    · split at hi <;> simp at hi
      subst hi; simp
    · simp at hi; subst hi; simp

/-- The `http_headers` check only emits non-empty messages. -/
theorem vHeaders_msgs (fields : List (String × RawValue)) :
    ∀ i ∈ (vHeaders fields).1, i.message ≠ "" := by
  intro i hi
  unfold vHeaders at hi
  split at hi
  · simp at hi
  · exact mem_flatten_map_msgs vHeaderEntry _ (fun x _ => vHeaderEntry_msgs x) i hi
  · simp at hi; subst hi; simp

/-- The `http_method` check only emits non-empty messages. -/
theorem vMethod_msgs (fields : List (String × RawValue)) :
    ∀ i ∈ (vMethod fields).1, i.message ≠ "" := by
  intro i hi
  unfold vMethod at hi
  split at hi <;> simp at hi
  · rcases hi with ⟨h1, rfl⟩; simp
  · subst hi; simp

/-- The `http_protocol` check only emits non-empty messages. -/
theorem vProtocol_msgs (fields : List (String × RawValue)) :
    ∀ i ∈ (vProtocol fields).1, i.message ≠ "" := by
  intro i hi
  unfold vProtocol at hi
  split at hi <;> simp at hi
  · rcases hi with ⟨h1, rfl⟩; simp
  · subst hi; simp

/-- The `accessory` check only emits non-empty messages. -/
theorem vAccessory_msgs (fields : List (String × RawValue)) :
    ∀ i ∈ (vAccessory fields).1, i.message ≠ "" := by
  intro i hi
  unfold vAccessory at hi
  split at hi <;> simp at hi
  subst hi; simp

/-- Defaulted number checks only emit non-empty messages. -/
theorem defNum_msgs (fields : List (String × RawValue)) (key : String) (dflt : ℚ) :
    ∀ i ∈ (defNum fields key dflt).1, i.message ≠ "" := by
  intro i hi
  unfold defNum at hi
  split at hi <;> simp at hi
  subst hi; simp

/-- Defaulted lower-bounded number checks only emit non-empty messages. -/
theorem defNumMin_msgs (fields : List (String × RawValue)) (key : String) (lo dflt : ℚ) :
    ∀ i ∈ (defNumMin fields key lo dflt).1, i.message ≠ "" := by
  intro i hi
  unfold defNumMin at hi
  split at hi <;> simp at hi
  · rcases hi with ⟨h1, rfl⟩; simp
  · subst hi; simp

/-- The `units` check only emits non-empty messages. -/
theorem vUnits_msgs (fields : List (String × RawValue)) :
    ∀ i ∈ (vUnits fields).1, i.message ≠ "" := by
  intro i hi
  unfold vUnits at hi
  split at hi <;> simp at hi
  · rcases hi with ⟨h1, rfl⟩; simp
  · subst hi; simp

/-- The `.strict()` check only emits non-empty messages. -/
theorem strictIssues_msgs (fields : List (String × RawValue)) :
    ∀ i ∈ strictIssues fields, i.message ≠ "" := by
  intro i hi
  unfold strictIssues at hi
  simp at hi
  obtain ⟨k2, v2, hmem, rfl⟩ := hi
  simp

/-- A failed validation reports at least one issue, and every reported issue
carries a non-empty message. -/
theorem validateConfig_error_issues (raw : RawValue) (issues : List Issue)
    (h : validateConfig raw = .error issues) :
    issues ≠ [] ∧ ∀ i ∈ issues, i.message ≠ "" := by
  cases raw with
  | obj fields =>
    rw [show validateConfig (RawValue.obj fields) = validateFields fields from rfl] at h
    unfold validateFields at h
    split at h
    · simp at h
    · rename_i hne
      simp only [Except.error.injEq] at h
      subst h
      refine ⟨by simpa using hne, ?_⟩
      intro i hmem
      unfold allIssues at hmem
      simp only [List.append_assoc, List.mem_append] at hmem
      rcases hmem with h|h|h|h|h|h|h|h|h|h|h|h|h|h|h|h|h|h
      · exact strictIssues_msgs _ i h
      · exact vAccessory_msgs _ i h
      · exact vUrl_msgs _ i h
      · exact vName_msgs _ i h
      · exact vAuth_msgs _ i h
      · exact vDebug_msgs _ i h
      · exact defStr_msgs _ _ _ i h
      · exact vHeaders_msgs _ i h
      · exact vMethod_msgs _ i h
      · exact vProtocol_msgs _ i h
      · exact defStr_msgs _ _ _ i h
      · exact defNum_msgs _ _ _ i h
      · exact defNum_msgs _ _ _ i h
      · exact defStr_msgs _ _ _ i h
      · exact defStr_msgs _ _ _ i h
      · exact defNumMin_msgs _ _ _ _ i h
      · exact vUnits_msgs _ i h
      · exact defNumMin_msgs _ _ _ _ i h
  | null => simp only [validateConfig, Except.error.injEq] at h; subst h; simp
  | bool b => simp only [validateConfig, Except.error.injEq] at h; subst h; simp
  | num q => simp only [validateConfig, Except.error.injEq] at h; subst h; simp
  | str s => simp only [validateConfig, Except.error.injEq] at h; subst h; simp
  | arr xs => simp only [validateConfig, Except.error.injEq] at h; subst h; simp

/-! ## Concrete configurations for witnesses -/

/-- The typed configuration produced from the minimal valid raw
configuration: all optional fields at their documented defaults. -/
def cfgMinimal : Config :=
  { accessory := none
    url := "http://localhost"
    name := "Temperature Sensor"
    auth := none
    debug := false
    field_name := "temperature"
    http_headers := none
    http_method := .GET
    http_protocol := none
    manufacturer := "@metbosch"
    min_temp := -100
    max_temp := 130
    model := "Model not available"
    serial := "Non-defined serial"
    timeout := 5000
    units := .C
    update_interval := 120000 }

/-- An on-demand configuration: `update_interval = 0`, raw-body parsing. -/
def cfgOnDemand : Config :=
  { cfgMinimal with update_interval := 0, field_name := "" }

/-- The plain `{"temperature": 5}` body from the repository tests. -/
def tempBodyEx : String := "\x7b \"temperature\": 5 \x7d"

/-! ## Claim C6 (confirmed) -/

/-- C6: construction propagates a structured validation error — one or more
issues, each with a path and a non-empty human-readable message — exactly
when validation fails (no service value exists in that case); and no
per-refresh failure escapes the service boundary: an erroring
`getTemperature` is absorbed into a `null` cache value by the on-demand read
and by the timer tick (whose callback then reports `null`). -/
theorem config_validation_boundary (raw : RawValue) (cfg : Config)
    (st : Option JsNum) (o : FetchOutcome) :
    (∀ issues, withAccessoryConfig raw = Except.error issues →
      issues ≠ [] ∧ ∀ i ∈ issues, i.message ≠ "") ∧
    (∀ e, (getTemperature cfg o).1 = Except.error e →
      refreshOnce cfg o = none ∧ timerTick cfg o = (none, [none]) ∧
      (cfg.update_interval = 0 → (getCurrentTemperature cfg st o).ret = none)) := by
  constructor
  · intro issues h
    have hv : validateConfig raw = .error issues := by
      unfold withAccessoryConfig at h
      cases hvc : validateConfig raw with
      | ok c => rw [hvc] at h; simp at h
      | error is => rw [hvc] at h; simp at h; subst h; rfl
    exact validateConfig_error_issues raw issues hv
  · intro e h
    have hr : refreshOnce cfg o = none := by simp [refreshOnce, h]
    refine ⟨hr, ?_, ?_⟩
    · simp [timerTick, hr]
    · intro h0
      simp [getCurrentTemperature, h0, hr]

/-- C6 witness: the empty object fails validation with the two `Required`
issues and no service is produced; and a transport error during a refresh of
the minimal configuration is absorbed into the `null` cache value. -/
theorem config_validation_boundary_witness :
    withAccessoryConfig (RawValue.obj []) =
      Except.error [⟨["url"], "Required"⟩, ⟨["name"], "Required"⟩] ∧
    ([⟨["url"], "Required"⟩, (⟨["name"], "Required"⟩ : Issue)] ≠ []) ∧
    refreshOnce cfgMinimal FetchOutcome.transportError = none := by
  refine ⟨by decide, ?_, ?_⟩
  · exact ((config_validation_boundary (RawValue.obj []) cfgMinimal none
      FetchOutcome.transportError).1 _ (by decide)).1
  · exact ((config_validation_boundary (RawValue.obj []) cfgMinimal none
      FetchOutcome.transportError).2 "fetch failed" (by decide)).1

/-! ## Claim C4 (confirmed) -/

/-- C4: with `update_interval = 0`, a `getCurrentTemperature` call performs
exactly one refresh, stores and returns its result and invokes no callback;
with `update_interval ≠ 0` it returns the cached value with no refresh and
no callback; and the refreshed value is the fetched number on success and
`null` on soft (timeout) or hard (error) failure. -/
theorem get_current_value_modes (cfg : Config) (st : Option JsNum) (o : FetchOutcome) :
    (cfg.update_interval = 0 →
      getCurrentTemperature cfg st o = ⟨refreshOnce cfg o, refreshOnce cfg o, 1, []⟩) ∧
    (cfg.update_interval ≠ 0 →
      getCurrentTemperature cfg st o = ⟨st, st, 0, []⟩) ∧
    (∀ t, (getTemperature cfg o).1 = Except.ok (some t) → refreshOnce cfg o = some t) ∧
    ((getTemperature cfg o).1 = Except.ok none → refreshOnce cfg o = none) ∧
    (∀ e, (getTemperature cfg o).1 = Except.error e → refreshOnce cfg o = none) := by
  refine ⟨?_, ?_, ?_, ?_, ?_⟩
  · intro h; simp [getCurrentTemperature, h]
  · intro h; simp [getCurrentTemperature, h]
  · intro t h; simp [refreshOnce, h]
  · intro h; simp [refreshOnce, h]
  · intro e h; simp [refreshOnce, h]

/-- C4 witness: in on-demand mode a stale cache of 1 is replaced by the
freshly fetched 7 and returned, with one fetch and no callback. -/
theorem get_current_value_modes_witness :
    getCurrentTemperature cfgOnDemand (some (JsNum.finite 1)) (FetchOutcome.response "7") =
      ⟨some (JsNum.finite 7), some (JsNum.finite 7), 1, []⟩ := by
  have h := (get_current_value_modes cfgOnDemand (some (JsNum.finite 1))
    (FetchOutcome.response "7")).1 (by decide)
  rw [h]
  decide

/-! ## Claim C5 (confirmed) -/

/-- C5: a timer tick stores the refresh outcome (number on success, `null`
on timeout or extraction failure) and invokes the callback exactly once with
exactly that value; neither the constructor nor an on-demand read invokes
the callback. -/
theorem timer_tick_callback (cfg : Config) (o : FetchOutcome) (st : Option JsNum) :
    ((timerTick cfg o).2 = [(timerTick cfg o).1]) ∧
    (∀ t, (getTemperature cfg o).1 = Except.ok (some t) → (timerTick cfg o).1 = some t) ∧
    ((getTemperature cfg o).1 = Except.ok none → (timerTick cfg o).1 = none) ∧
    (∀ e, (getTemperature cfg o).1 = Except.error e → (timerTick cfg o).1 = none) ∧
    (serviceInit cfg).callbacks = [] ∧
    (getCurrentTemperature cfg st o).callbacks = [] := by
  refine ⟨rfl, ?_, ?_, ?_, rfl, ?_⟩
  · intro t h; simp [timerTick, refreshOnce, h]
  · intro h; simp [timerTick, refreshOnce, h]
  · intro e h; simp [timerTick, refreshOnce, h]
  · unfold getCurrentTemperature
    split <;> rfl

/-- C5 witness: a tick on the `{"temperature": 5}` body under the default
configuration caches 5 and invokes the callback once with 5. -/
theorem timer_tick_callback_witness :
    (timerTick cfgMinimal (FetchOutcome.response tempBodyEx)).1 = some (JsNum.finite 5) ∧
    (timerTick cfgMinimal (FetchOutcome.response tempBodyEx)).2 = [some (JsNum.finite 5)] := by
  have h := timer_tick_callback cfgMinimal (FetchOutcome.response tempBodyEx) none
  refine ⟨h.2.1 (JsNum.finite 5) (by decide), ?_⟩
  rw [h.1, h.2.1 (JsNum.finite 5) (by decide)]

/-! ## Claim C7 (corrected)

The schema is closed-world, but over a larger key set than the §3 table: it
also recognises `accessory` (injected by Homebridge) and the deprecated
`http_protocol`, `min_temp` and `max_temp`. A configuration containing
`min_temp` — not a §3 field — validates successfully. -/

/-- The configuration fields recognised by the §3 table of the spec. -/
def specRecognizedFields : List String :=
  ["url", "name", "auth", "http_headers", "http_method", "field_name",
   "manufacturer", "model", "serial", "timeout", "units", "update_interval",
   "debug"]

/-- A raw configuration carrying the deprecated `min_temp` field. -/
def rawMinTempEx : RawValue :=
  .obj [("url", .str "http://localhost"), ("name", .str "Temperature Sensor"),
    ("min_temp", .num (-100))]

/-- Did validation succeed? -/
def isOkConfig : Except (List Issue) Config → Bool
  | .ok _ => true
  | .error _ => false

/-- C7 counterexample: `rawMinTempEx` contains the key `min_temp`, which is
not in the §3 field list, yet validation succeeds. -/
theorem unknown_field_counterexample :
    isOkConfig (validateConfig rawMinTempEx) = true ∧
    "min_temp" ∈ rawKeys rawMinTempEx ∧
    "min_temp" ∉ specRecognizedFields :=
  ⟨by decide, by decide, by decide⟩

/-- C7 (amended): validation is closed-world over the full schema key set —
the §3 fields together with `accessory`, `http_protocol`, `min_temp` and
`max_temp`: any raw configuration object containing a key outside that set
fails validation with at least one issue. -/
theorem unknown_field_rejected (fields : List (String × RawValue)) (k : String)
    (hk : k ∈ fields.map Prod.fst) (hns : k ∉ schemaKeys) :
    ∃ issues, validateConfig (RawValue.obj fields) = Except.error issues ∧
      issues ≠ [] := by
  rw [List.mem_map] at hk
  obtain ⟨kv, hkv, heq⟩ := hk
  have hp : (fun kv : String × RawValue => !(decide (kv.1 ∈ schemaKeys))) kv = true := by
    simp [heq, hns]
  have hmemf : kv ∈ fields.filter (fun kv => !(decide (kv.1 ∈ schemaKeys))) :=
    List.mem_filter.mpr ⟨hkv, hp⟩
  have hmems : (⟨[kv.1], "Unrecognized key"⟩ : Issue) ∈ strictIssues fields := by
    unfold strictIssues
    exact List.mem_map_of_mem _ hmemf
  have hmemAll : (⟨[kv.1], "Unrecognized key"⟩ : Issue) ∈ allIssues fields := by
    unfold allIssues
    simp only [List.append_assoc]
    exact List.mem_append_left _ hmems
  have hAllNe : allIssues fields ≠ [] := by
    intro hempty
    rw [hempty] at hmemAll
    exact absurd hmemAll (List.not_mem_nil _)
  refine ⟨allIssues fields, ?_, hAllNe⟩
  rw [show validateConfig (RawValue.obj fields) = validateFields fields from rfl]
  unfold validateFields
  rw [if_neg]
  intro hIsEmpty
  exact hAllNe (List.isEmpty_iff.mp hIsEmpty)

/-- C7 witness: the amended theorem applied to the repository test configuration
carrying `additionalKey`. -/
theorem unknown_field_rejected_witness :
    ∃ issues,
      validateConfig (RawValue.obj [("url", RawValue.str "http://localhost"),
        ("name", RawValue.str "Temperature Sensor"),
        ("additionalKey", RawValue.num 1)]) = Except.error issues ∧
      issues ≠ [] :=
  unknown_field_rejected _ "additionalKey" (by decide) (by decide)

/-! ## Claim C8 (confirmed) -/

/-- C8: whenever validation succeeds, every omitted optional field of the
resulting typed configuration holds its documented default: `http_method`
GET, `field_name` `"temperature"`, `timeout` 5000, `units` C,
`update_interval` 120000, `debug` false, and the documented
manufacturer/model/serial strings. -/
theorem defaults_applied (fields : List (String × RawValue)) (cfg : Config)
    (h : validateConfig (RawValue.obj fields) = Except.ok cfg) :
    (lookupRaw fields "http_method" = none → cfg.http_method = HttpMethod.GET) ∧
    (lookupRaw fields "field_name" = none → cfg.field_name = "temperature") ∧
    (lookupRaw fields "timeout" = none → cfg.timeout = 5000) ∧
    (lookupRaw fields "units" = none → cfg.units = TempUnits.C) ∧
    (lookupRaw fields "update_interval" = none → cfg.update_interval = 120000) ∧
    (lookupRaw fields "debug" = none → cfg.debug = false) ∧
    (lookupRaw fields "manufacturer" = none → cfg.manufacturer = "@metbosch") ∧
    (lookupRaw fields "model" = none → cfg.model = "Model not available") ∧
    (lookupRaw fields "serial" = none → cfg.serial = "Non-defined serial") := by
  rw [show validateConfig (RawValue.obj fields) = validateFields fields from rfl] at h
  unfold validateFields at h
  split at h
  · simp only [Except.ok.injEq] at h
    subst h
    refine ⟨?_, ?_, ?_, ?_, ?_, ?_, ?_, ?_, ?_⟩
    · intro hnone; simp [buildConfig, vMethod, hnone]
    · intro hnone; simp [buildConfig, defStr, hnone]
    · intro hnone; simp [buildConfig, defNumMin, hnone]
    · intro hnone; simp [buildConfig, vUnits, hnone]
    · intro hnone; simp [buildConfig, defNumMin, hnone]
    · intro hnone; simp [buildConfig, vDebug, hnone]
    · intro hnone; simp [buildConfig, defStr, hnone]
    · intro hnone; simp [buildConfig, defStr, hnone]
    · intro hnone; simp [buildConfig, defStr, hnone]
  · simp at h

/-- C8 witness: the minimal raw configuration validates to `cfgMinimal`,
whose optional fields all carry the documented defaults. -/
theorem defaults_applied_witness :
    cfgMinimal.http_method = HttpMethod.GET ∧
    cfgMinimal.field_name = "temperature" ∧
    cfgMinimal.timeout = 5000 ∧
    cfgMinimal.units = TempUnits.C ∧
    cfgMinimal.update_interval = 120000 ∧
    cfgMinimal.debug = false ∧
    cfgMinimal.manufacturer = "@metbosch" ∧
    cfgMinimal.model = "Model not available" ∧
    cfgMinimal.serial = "Non-defined serial" := by
  have h := defaults_applied
    [("url", RawValue.str "http://localhost"),
      ("name", RawValue.str "Temperature Sensor")] cfgMinimal (by decide)
  exact ⟨h.1 rfl, h.2.1 rfl, h.2.2.1 rfl, h.2.2.2.1 rfl, h.2.2.2.2.1 rfl,
    h.2.2.2.2.2.1 rfl, h.2.2.2.2.2.2.1 rfl, h.2.2.2.2.2.2.2.1 rfl,
    h.2.2.2.2.2.2.2.2 rfl⟩

/-! ## Claim C9 (corrected)

The cache invariant holds with "number" in place of "finite number": the
`isNumeric` guard excludes NaN but not the infinities, so a body of
`"Infinity"` under an empty `field_name` caches Infinity. -/

/-- The minimal configuration reading the raw body (`field_name := ""`). -/
def cfgEmptyField : Config := { cfgMinimal with field_name := "" }

/-- C9 counterexample: a reachable cache state holds the non-finite number
Infinity (tick on body `"Infinity"` with empty `field_name`), refuting
"either a finite number or unknown". -/
theorem cache_nonfinite_counterexample :
    Reachable cfgEmptyField (some JsNum.inf) ∧ isFiniteNum JsNum.inf = false := by
  constructor
  · have h : (timerTick cfgEmptyField (FetchOutcome.response "Infinity")).1 =
        some JsNum.inf := by decide
    exact h ▸ Reachable.tick (FetchOutcome.response "Infinity") none Reachable.init
  · rfl

/-- C9 (amended): the cache is initialized to `null` at construction and,
across every sequence of refresh writes (timer ticks and on-demand reads,
the only writers of the cache), it always holds either `null` or a non-NaN
number — possibly a non-finite one such as Infinity. -/
theorem cache_invariant (cfg : Config) (st : Option JsNum) (h : Reachable cfg st) :
    (serviceInit cfg).state = none ∧
    (st = none ∨ ∃ t, st = some t ∧ isNumeric t = true) := by
  refine ⟨rfl, ?_⟩
  induction h with
  | init => exact Or.inl rfl
  | tick o st2 hs ih => simpa [timerTick] using refreshOnce_cases cfg o
  | demand o st2 hs ih =>
    unfold getCurrentTemperature
    split
    · simpa using refreshOnce_cases cfg o
    · simpa using ih

/-- C9 witness: the amended invariant at the initial constructor state. -/
theorem cache_invariant_witness :
    (serviceInit cfgMinimal).state = none ∧
    ((none : Option JsNum) = none ∨
      ∃ t, (none : Option JsNum) = some t ∧ isNumeric t = true) :=
  cache_invariant cfgMinimal none Reachable.init

/-! ## Claim C10 (confirmed) -/

/-- `find?` for one header name ignores the removal of entries matching a
different name. -/
theorem find?_filter_ne (t : List (String × String)) (k k2 : String)
    (hne : lowerStr k2 ≠ lowerStr k) :
    List.find? (fun kv => lowerStr kv.1 == lowerStr k2)
      (t.filter fun kv => !(lowerStr kv.1 == lowerStr k)) =
    List.find? (fun kv => lowerStr kv.1 == lowerStr k2) t := by
  induction t with
  | nil => rfl
  | cons a t ih =>
    by_cases hqa : lowerStr a.1 = lowerStr k
    · have hpa : ¬((fun kv : String × String => lowerStr kv.1 == lowerStr k2) a = true) := by
        simp [hqa]
        exact Ne.symm hne
      rw [List.filter_cons_of_neg (by simp [hqa]), List.find?_cons_of_neg t hpa]
      exact ih
    · rw [List.filter_cons_of_pos (by simp [hqa])]
      by_cases hpa : lowerStr a.1 = lowerStr k2
      · have hpa2 : ((fun kv : String × String => lowerStr kv.1 == lowerStr k2) a = true) := by
          simp [hpa]
        rw [List.find?_cons_of_pos (t.filter fun kv => !(lowerStr kv.1 == lowerStr k)) hpa2,
          List.find?_cons_of_pos t hpa2]
      · have hpa2 : ¬((fun kv : String × String => lowerStr kv.1 == lowerStr k2) a = true) := by
          simp [hpa]
        rw [List.find?_cons_of_neg (t.filter fun kv => !(lowerStr kv.1 == lowerStr k)) hpa2,
          List.find?_cons_of_neg t hpa2]
        exact ih

/-- `Headers.set` makes the set name resolve to the new value. -/
theorem lookupHeader_set_same (hs : List (String × String)) (k v : String) :
    lookupHeader (headerSet hs k v) k = some v := by
  unfold lookupHeader headerSet
  rw [List.find?_append]
  have h1 : List.find? (fun kv => lowerStr kv.1 == lowerStr k)
      (hs.filter fun kv => !(lowerStr kv.1 == lowerStr k)) = none := by
    rw [List.find?_eq_none]
    intro x hx
    have h2 := (List.mem_filter.mp hx).2
    simpa using h2
  rw [h1]
  simp

/-- `Headers.set` leaves every other header name unchanged. -/
theorem lookupHeader_set_other (hs : List (String × String)) (k v k2 : String)
    (hne : lowerStr k2 ≠ lowerStr k) :
    lookupHeader (headerSet hs k v) k2 = lookupHeader hs k2 := by
  unfold lookupHeader headerSet
  rw [List.find?_append]
  have hlast : List.find? (fun kv => lowerStr kv.1 == lowerStr k2) [(k, v)] = none := by
    have hbe : (lowerStr k == lowerStr k2) = false := by
      simp only [beq_eq_false_iff_ne, ne_eq]
      exact Ne.symm hne
    simp [List.find?, hbe]
  rw [hlast, find?_filter_ne _ _ _ hne]
  cases List.find? (fun kv => lowerStr kv.1 == lowerStr k2) hs <;> rfl

/-- C10: the outbound request carries the configured method and URL; its
headers are exactly the configured ones when `auth` is absent, and otherwise
the configured ones with the `Authorization` name resolving to
`"Basic " ++ base64(user ++ ":" ++ pass)` (replacing any such entry) and all
other names untouched. -/
theorem fetch_request_built (cfg : Config) :
    (getFetchTemperatureRequest cfg).method = cfg.http_method ∧
    (getFetchTemperatureRequest cfg).url = cfg.url ∧
    (cfg.auth = none →
      (getFetchTemperatureRequest cfg).headers = headersInit cfg.http_headers) ∧
    (∀ a : AuthConfig, cfg.auth = some a →
      lookupHeader (getFetchTemperatureRequest cfg).headers "Authorization" =
        some (basicAuthValue a.user a.pass) ∧
      ∀ k : String, lowerStr k ≠ lowerStr "Authorization" →
        lookupHeader (getFetchTemperatureRequest cfg).headers k =
          lookupHeader (headersInit cfg.http_headers) k) := by
  refine ⟨rfl, rfl, ?_, ?_⟩
  · intro h
    unfold getFetchTemperatureRequest
    rw [h]
  · intro a ha
    unfold getFetchTemperatureRequest
    rw [ha]
    refine ⟨?_, ?_⟩
    · exact lookupHeader_set_same (headersInit cfg.http_headers) "Authorization"
        (basicAuthValue a.user a.pass)
    · intro k hk
      exact lookupHeader_set_other (headersInit cfg.http_headers) "Authorization"
        (basicAuthValue a.user a.pass) k hk

/-- A configuration with basic auth and a custom header. -/
def cfgAuthEx : Config :=
  { cfgMinimal with
    auth := some ⟨"user", "pass"⟩
    http_headers := some [("X-Token", "t")] }

/-- C10 witness: with auth `user`/`pass`, the request carries
`Authorization: Basic dXNlcjpwYXNz` while the configured `X-Token` header
and the URL are preserved. -/
theorem fetch_request_built_witness :
    lookupHeader (getFetchTemperatureRequest cfgAuthEx).headers "Authorization" =
      some "Basic dXNlcjpwYXNz" ∧
    lookupHeader (getFetchTemperatureRequest cfgAuthEx).headers "X-Token" = some "t" ∧
    (getFetchTemperatureRequest cfgAuthEx).url = "http://localhost" := by
  have h := fetch_request_built cfgAuthEx
  have h4 := h.2.2.2 ⟨"user", "pass"⟩ rfl
  refine ⟨?_, ?_, ?_⟩
  · rw [h4.1]; decide
  · rw [h4.2 "X-Token" (by decide)]; decide
  · rw [h.2.1]; rfl

end HttpTemp
